import Mathlib

/-!
Verification of the MedGuard analytical pipeline.

The definitions below are shallow embeddings of the numeric core of the
repository: gridded fields become functions `Fin n → ℚ` (or lists of reals
where transcendental functions are involved), the min-max normalization and
the two weighted risk composers are translated statement by statement from
`process_data_script.py` (`calculate_overfishing_risk_index`,
`calculate_current_speed`, `calculate_sst_anomaly`, `calculate_mpa_coverage`),
`newer files/data_processing.py` (`calculate_multifactor_risk_index`,
`detect_illegal_fishing_patterns`) and `train_models_script.py`
(`MPASimulator.simulate_expansion`, the trained-flag guards of the two
statistical models).
-/

namespace MedGuard

/-- Minimum of a gridded field over its whole extent, mirroring
`float(risk.min())` on a nonempty grid. -/
def fieldMin {n : ℕ} [NeZero n] (f : Fin n → ℚ) : ℚ :=
  Finset.univ.inf' Finset.univ_nonempty f

/-- Maximum of a gridded field over its whole extent, mirroring
`float(risk.max())` on a nonempty grid. -/
def fieldMax {n : ℕ} [NeZero n] (f : Fin n → ℚ) : ℚ :=
  Finset.univ.sup' Finset.univ_nonempty f

/-- Min-max normalization of one risk component, translated from
`calculate_overfishing_risk_index` (process_data_script.py lines 347-355)
and identically from `calculate_multifactor_risk_index`
(data_processing.py lines 679-687):
`if risk_max > risk_min: (risk - risk_min) / (risk_max - risk_min)
 else: risk * 0`. -/
def minmaxNorm {n : ℕ} [NeZero n] (f : Fin n → ℚ) : Fin n → ℚ :=
  if fieldMax f > fieldMin f then
    fun j => (f j - fieldMin f) / (fieldMax f - fieldMin f)
  else
    fun j => f j * 0

/-- Optional risk components of `calculate_overfishing_risk_index`
(process_data_script.py): each derived field is present only when the
corresponding processed dataset exists. -/
structure RiskInputs (n : ℕ) where
  sst : Option (Fin n → ℚ)
  productivity : Option (Fin n → ℚ)
  frontal : Option (Fin n → ℚ)

/-- Present components of `calculate_overfishing_risk_index` paired with
their declared weights `{'sst': 0.3, 'productivity': 0.4, 'frontal': 0.3}`. -/
def riskComponents {n : ℕ} (d : RiskInputs n) : List (ℚ × (Fin n → ℚ)) :=
  (d.sst.toList.map fun f => (3/10, f)) ++
    (d.productivity.toList.map fun f => (2/5, f)) ++
    (d.frontal.toList.map fun f => (3/10, f))

/-- Combined overfishing risk index of `calculate_overfishing_risk_index`
(process_data_script.py lines 357-361): the weighted sum of the normalized
present components divided by the sum of the weights of the present
components (`sum(weights.get(key, 1.0) for key in normalized_risks.keys())`). -/
def overfishing_risk_index {n : ℕ} [NeZero n] (d : RiskInputs n) : Fin n → ℚ :=
  fun j =>
    ((riskComponents d).map fun p => minmaxNorm p.2 j * p.1).sum /
      ((riskComponents d).map fun p => p.1).sum

/-- Modelled from the spec: the combination rule stated in section 4.2 of the
specification, for comparison with the code's composers - the weighted sum of
the min-max-normalized present factors divided by the sum of the weights of
the factors actually present. -/
def specCombine {n : ℕ} [NeZero n] (comps : List (ℚ × (Fin n → ℚ))) : Fin n → ℚ :=
  fun j =>
    (comps.map fun p => minmaxNorm p.2 j * p.1).sum /
      (comps.map fun p => p.1).sum

/-- Inputs of `calculate_multifactor_risk_index` (data_processing.py):
three components contribute an actual field, while the fishing-pressure and
protection-gap branches only record a weight (the code declares
`weights['fishing_pressure'] = 0.3` and `weights['protection_gap'] = 0.15`
without ever adding a field to `risk_components`). -/
structure MFInputs (n : ℕ) where
  environmental_stress : Option (Fin n → ℚ)
  fishing_present : Bool
  habitat_degradation : Option (Fin n → ℚ)
  connectivity_disruption : Option (Fin n → ℚ)
  mpa_present : Bool

/-- Present field-bearing components of `calculate_multifactor_risk_index`
with their declared weights 0.2, 0.2 and 0.15. -/
def mfComponents {n : ℕ} (d : MFInputs n) : List (ℚ × (Fin n → ℚ)) :=
  (d.environmental_stress.toList.map fun f => (1/5, f)) ++
    (d.habitat_degradation.toList.map fun f => (1/5, f)) ++
    (d.connectivity_disruption.toList.map fun f => (3/20, f))

/-- Total weight `sum(weights.values())` of `calculate_multifactor_risk_index`
(data_processing.py line 690): it includes the weights 0.3 and 0.15 declared
for fishing pressure and the protection gap even though those branches add no
field to `risk_components`. -/
def mfTotalWeight {n : ℕ} (d : MFInputs n) : ℚ :=
  ((mfComponents d).map fun p => p.1).sum +
    (if d.fishing_present then 3/10 else 0) +
    (if d.mpa_present then 3/20 else 0)

/-- Combined index of `calculate_multifactor_risk_index` (data_processing.py
lines 691-694): `sum(normalized_components[key] * weights[key] / total_weight)`. -/
def multifactor_risk_index {n : ℕ} [NeZero n] (d : MFInputs n) : Fin n → ℚ :=
  fun j =>
    ((mfComponents d).map fun p => minmaxNorm p.2 j * p.1 / mfTotalWeight d).sum

/-- MPA coverage statistics of `calculate_mpa_coverage`
(process_data_script.py lines 277-294): the projected areas (in square
meters, one per MPA record) are summed and converted to square kilometers,
then divided by the fixed Mediterranean total area `2.5e6` square kilometers
and expressed as a percentage.  The result pairs the total area in square
kilometers with the coverage percentage. -/
def calculate_mpa_coverage (areas_m2 : List ℚ) : ℚ × ℚ :=
  let mpa_area := areas_m2.sum / 1000000
  let med_total_area : ℚ := 2500000
  (mpa_area, mpa_area / med_total_area * 100)

/-- Flag record emitted for a cluster by `detect_illegal_fishing_patterns`
(data_processing.py lines 283-296), restricted to the fields the proximity
logic computes from the distance; the vessel-count and effort attributes are
copied from the cluster rows and carry no logic. -/
structure SuspiciousCluster where
  near_mpa : String
  risk_score : ℚ
deriving DecidableEq, Repr

/-- Per-cluster MPA proximity scan of `detect_illegal_fishing_patterns`
(data_processing.py lines 283-296): the MPA records are visited in dataframe
order, each paired here with the distance from the cluster centroid to its
boundary; the first record with distance below 0.05 degree produces the flag
`risk_score = min(1.0, 1 - (distance * 20))` and the loop breaks, so at most
one flag per cluster is emitted. -/
def scanMPAs : List (String × ℚ) → Option SuspiciousCluster
  | [] => none
  | (nm, d) :: rest =>
    if d < 1/20 then some ⟨nm, min 1 (1 - d * 20)⟩ else scanMPAs rest

/-- State of `OverfishingRiskModel` (train_models_script.py): the sklearn
scaler and random-forest classifier are opaque statistical objects, embedded
as abstract per-row functions; the `trained` flag is the field the
prediction guard reads. -/
structure OverfishingRiskModel where
  scale : List ℚ → List ℚ
  predictProba : List ℚ → ℚ
  feature_names : List String
  trained : Bool

/-- Initial state built by `OverfishingRiskModel.__init__`: unfitted
estimator objects (opaque), empty feature names, `trained = False`. -/
def OverfishingRiskModel.init : OverfishingRiskModel :=
  { scale := id, predictProba := fun _ => 0, feature_names := [], trained := false }

/-- Embedding of `OverfishingRiskModel.train` (lines 119-160): the split,
scaling and forest fit are opaque statistics, so the fitted scaler, the
fitted classifier and the held-out score arrive as parameters; the method
sets `self.trained = True` and returns the test score. -/
def OverfishingRiskModel.train (m : OverfishingRiskModel)
    (fittedScale : List ℚ → List ℚ) (fittedPredict : List ℚ → ℚ)
    (testScore : ℚ) : OverfishingRiskModel × ℚ :=
  ({ m with scale := fittedScale, predictProba := fittedPredict, trained := true },
    testScore)

/-- Embedding of `OverfishingRiskModel.predict_risk` (lines 162-169):
`if not self.trained: raise ValueError(...)`, otherwise scale the feature
rows and return the per-row probability of the high-risk class. -/
def OverfishingRiskModel.predict_risk (m : OverfishingRiskModel)
    (X : List (List ℚ)) : Except String (List ℚ) :=
  if m.trained then
    Except.ok (X.map fun row => m.predictProba (m.scale row))
  else
    Except.error "Model must be trained before prediction"

/-- State of `JuvenileCatchForecastModel` (train_models_script.py), embedded
the same way as the risk model: opaque fitted scaler and regressor plus the
`trained` flag. -/
structure JuvenileCatchForecastModel where
  scale : List ℚ → List ℚ
  predict : List ℚ → ℚ
  feature_names : List String
  trained : Bool

/-- Initial state built by `JuvenileCatchForecastModel.__init__` with
`trained = False`. -/
def JuvenileCatchForecastModel.init : JuvenileCatchForecastModel :=
  { scale := id, predict := fun _ => 0, feature_names := [], trained := false }

/-- Embedding of `JuvenileCatchForecastModel.train` (lines 265-305): opaque
fit, then `self.trained = True` and the held-out score is returned. -/
def JuvenileCatchForecastModel.train (m : JuvenileCatchForecastModel)
    (fittedScale : List ℚ → List ℚ) (fittedPredict : List ℚ → ℚ)
    (testScore : ℚ) : JuvenileCatchForecastModel × ℚ :=
  ({ m with scale := fittedScale, predict := fittedPredict, trained := true },
    testScore)

/-- Embedding of `JuvenileCatchForecastModel.forecast` (lines 307-318):
`if not self.trained: raise ValueError(...)`, otherwise scale and predict;
the returned date range of `days` consecutive days is embedded as the day
offsets `List.range days`. -/
def JuvenileCatchForecastModel.forecast (m : JuvenileCatchForecastModel)
    (X : List (List ℚ)) (days : ℕ) : Except String (List ℕ × List ℚ) :=
  if m.trained then
    Except.ok (List.range days, X.map fun row => m.predict (m.scale row))
  else
    Except.error "Model must be trained before forecasting"

/-- Four-quadrant arctangent with the semantics of `np.arctan2(y, x)`:
the angle of the vector `(x, y)` in radians in `(-pi, pi]`, measured
counterclockwise from the positive x-axis, with `arctan2 0 0 = 0`. -/
noncomputable def arctan2 (y x : ℝ) : ℝ :=
  if 0 < x then Real.arctan (y / x)
  else if x < 0 then
    if 0 ≤ y then Real.arctan (y / x) + Real.pi
    else Real.arctan (y / x) - Real.pi
  else
    if 0 < y then Real.pi / 2
    else if y < 0 then -(Real.pi / 2)
    else 0

/-- Floating-style modulus with the semantics of numpy `%` on reals:
`x - y * floor (x / y)`, so for positive `y` the result lies in `[0, y)`. -/
noncomputable def fmod (x y : ℝ) : ℝ := x - y * ⌊x / y⌋

/-- Current speed of `calculate_current_speed` (process_data_script.py line
128): `speed = np.sqrt(u**2 + v**2)` per cell. -/
noncomputable def current_speed (u v : ℝ) : ℝ := Real.sqrt (u ^ 2 + v ^ 2)

/-- Current direction of `calculate_current_speed` (process_data_script.py
lines 131-132): `direction = np.arctan2(v, u) * 180 / np.pi` followed by
`direction = (direction + 360) % 360`. -/
noncomputable def current_direction (u v : ℝ) : ℝ :=
  fmod (arctan2 v u * 180 / Real.pi + 360) 360

/-- Mean of a per-cell sample list, the monthly climatology
`sst.groupby('time.month').mean('time')` restricted to one cell and one
month group. -/
noncomputable def sampleMean (xs : List ℝ) : ℝ := xs.sum / xs.length

/-- Population standard deviation of a per-cell sample list, matching the
xarray default `std` with zero delta degrees of freedom, as computed by
`sst.groupby('time.month').std('time')` at one cell and one month group. -/
noncomputable def sampleStd (xs : List ℝ) : ℝ :=
  Real.sqrt ((xs.map fun x => (x - sampleMean xs) ^ 2).sum / xs.length)

/-- IEEE-style division as performed elementwise by xarray in
`calculate_sst_anomaly` line 100: a zero divisor yields no finite value
(numpy emits NaN or infinity there), embedded as `none`. -/
noncomputable def fdiv (a b : ℝ) : Option ℝ :=
  if b = 0 then none else some (a / b)

/-- Standardized SST anomaly of `calculate_sst_anomaly`
(process_data_script.py lines 93-100) at one cell and one month group:
`(sst.groupby('time.month') - sst_climatology) / sst_std`, with the
unguarded division embedded by `fdiv`. -/
noncomputable def standardized_anomaly (xs : List ℝ) : List (Option ℝ) :=
  xs.map fun x => fdiv (x - sampleMean xs) (sampleStd xs)

/-- Per-year stock recovery of `MPASimulator.simulate_expansion`
(train_models_script.py lines 372-383): logistic growth
`K / (1 + ((K - initial_stock) / initial_stock) * np.exp(-r * t))` with
`K = 1.5`, `initial_stock = 0.6` and
`r = base_recovery_rate * (expansion_pct / 10)`, `base_recovery_rate = 0.07`. -/
noncomputable def stock_recovery (expansion_pct : ℝ) (t : ℕ) : ℝ :=
  let base_recovery_rate : ℝ := 0.07
  let K : ℝ := 1.5
  let r : ℝ := base_recovery_rate * (expansion_pct / 10)
  let initial_stock : ℝ := 0.6
  K / (1 + ((K - initial_stock) / initial_stock) * Real.exp (-r * t))

/-- Stock-recovery array of `MPASimulator.simulate_expansion`: the logistic
curve evaluated on `years_array = np.arange(0, years + 1)`. -/
noncomputable def simulate_expansion_stock (expansion_pct : ℝ) (years : ℕ) : List ℝ :=
  (List.range (years + 1)).map fun t => stock_recovery expansion_pct t

/-- Per-year biodiversity recovery of `MPASimulator.simulate_expansion`
(line 386): the same logistic curve at `0.8` times the rate. -/
noncomputable def biodiversity_recovery (expansion_pct : ℝ) (t : ℕ) : ℝ :=
  let base_recovery_rate : ℝ := 0.07
  let K : ℝ := 1.5
  let r : ℝ := base_recovery_rate * (expansion_pct / 10)
  let initial_stock : ℝ := 0.6
  K / (1 + ((K - initial_stock) / initial_stock) * Real.exp (-(r * 0.8) * t))

lemma fieldMin_le {n : ℕ} [NeZero n] (f : Fin n → ℚ) (j : Fin n) :
    fieldMin f ≤ f j :=
  Finset.inf'_le f (Finset.mem_univ j)

lemma le_fieldMax {n : ℕ} [NeZero n] (f : Fin n → ℚ) (j : Fin n) :
    f j ≤ fieldMax f :=
  Finset.le_sup' f (Finset.mem_univ j)

lemma minmaxNorm_nonneg {n : ℕ} [NeZero n] (f : Fin n → ℚ) (j : Fin n) :
    0 ≤ minmaxNorm f j := by
  unfold minmaxNorm
  split
  · next h =>
    exact div_nonneg (sub_nonneg.mpr (fieldMin_le f j)) (sub_nonneg.mpr (le_of_lt h))
  · simp

lemma minmaxNorm_le_one {n : ℕ} [NeZero n] (f : Fin n → ℚ) (j : Fin n) :
    minmaxNorm f j ≤ 1 := by
  unfold minmaxNorm
  split
  · next h =>
    rw [div_le_one (by linarith)]
    have := le_fieldMax f j
    linarith
  · simp

lemma minmaxNorm_of_const {n : ℕ} [NeZero n] (f : Fin n → ℚ) (c : ℚ)
    (h : ∀ j, f j = c) : minmaxNorm f = fun _ => 0 := by
  have hf : f = fun _ => c := funext h
  subst hf
  have hmax : fieldMax (fun _ : Fin n => c) = c := Finset.sup'_const _ c
  have hmin : fieldMin (fun _ : Fin n => c) = c := Finset.inf'_const _ c
  unfold minmaxNorm
  rw [hmax, hmin]
  simp

lemma list_sum_div (l : List ℚ) (b : ℚ) :
    (l.map fun a => a / b).sum = l.sum / b := by
  induction l with
  | nil => simp
  | cons a t ih => simp [ih, add_div]

lemma specCombine_bounds {n : ℕ} [NeZero n] (comps : List (ℚ × (Fin n → ℚ)))
    (hw : ∀ p ∈ comps, 0 ≤ p.1) (j : Fin n) :
    0 ≤ specCombine comps j ∧ specCombine comps j ≤ 1 := by
  have hnum0 : 0 ≤ (comps.map fun p => minmaxNorm p.2 j * p.1).sum := by
    apply List.sum_nonneg
    intro x hx
    obtain ⟨p, hp, rfl⟩ := List.mem_map.mp hx
    exact mul_nonneg (minmaxNorm_nonneg p.2 j) (hw p hp)
  have hnumS : (comps.map fun p => minmaxNorm p.2 j * p.1).sum ≤
      (comps.map fun p => p.1).sum := by
    apply List.sum_le_sum
    intro p hp
    have h1 := minmaxNorm_le_one p.2 j
    have h0 := hw p hp
    nlinarith
  have hS : 0 ≤ (comps.map fun p => p.1).sum := le_trans hnum0 hnumS
  rcases eq_or_lt_of_le hS with hS0 | hSpos
  · unfold specCombine
    rw [← hS0]
    simp
  · exact ⟨div_nonneg hnum0 (le_of_lt hSpos),
      (div_le_one hSpos).mpr hnumS⟩

lemma riskComponents_weight_nonneg {n : ℕ} (d : RiskInputs n) :
    ∀ p ∈ riskComponents d, 0 ≤ p.1 := by
  intro p hp
  simp only [riskComponents, List.mem_append, List.mem_map] at hp
  rcases hp with (⟨f, hf, rfl⟩ | ⟨f, hf, rfl⟩) | ⟨f, hf, rfl⟩ <;> norm_num

lemma mfComponents_weight_nonneg {n : ℕ} (e : MFInputs n) :
    ∀ p ∈ mfComponents e, 0 ≤ p.1 := by
  intro p hp
  simp only [mfComponents, List.mem_append, List.mem_map] at hp
  rcases hp with (⟨f, hf, rfl⟩ | ⟨f, hf, rfl⟩) | ⟨f, hf, rfl⟩ <;> norm_num

lemma mfComponents_sum_le_total {n : ℕ} (e : MFInputs n) :
    ((mfComponents e).map fun p => p.1).sum ≤ mfTotalWeight e := by
  unfold mfTotalWeight
  have h1 : (0:ℚ) ≤ if e.fishing_present then 3/10 else 0 := by positivity
  have h2 : (0:ℚ) ≤ if e.mpa_present then 3/20 else 0 := by positivity
  linarith

/-- Claim C2: min-max normalization keeps every cell of every field in
`[0, 1]`, and a constant field (maximum equal to minimum) normalizes to the
all-zero field; the values are exact rationals, so no NaN can appear. -/
theorem C2_minmax_normalization {n : ℕ} [NeZero n] (f : Fin n → ℚ) :
    (∀ j, 0 ≤ minmaxNorm f j ∧ minmaxNorm f j ≤ 1) ∧
    (∀ c, (∀ j, f j = c) → minmaxNorm f = fun _ => 0) :=
  ⟨fun j => ⟨minmaxNorm_nonneg f j, minmaxNorm_le_one f j⟩,
    fun c h => minmaxNorm_of_const f c h⟩

/-- Witness for C2 at the constant field with value 2 on a two-cell grid. -/
theorem C2_minmax_normalization_witness :
    (∀ j, (![2, 2] : Fin 2 → ℚ) j = 2) ∧
    minmaxNorm (![2, 2] : Fin 2 → ℚ) = fun _ => 0 := by
  have h : ∀ j, (![2, 2] : Fin 2 → ℚ) j = 2 := by decide
  exact ⟨h, (C2_minmax_normalization (![2, 2] : Fin 2 → ℚ)).2 2 h⟩

/-- Claim C8: the coverage percentage is the total projected MPA area in
square kilometers divided by the fixed constant `2.5e6` and multiplied by
100; a total area of 125000 square kilometers yields exactly 5.0 percent. -/
theorem C8_mpa_coverage :
    (∀ areas : List ℚ,
        (calculate_mpa_coverage areas).2 =
          (calculate_mpa_coverage areas).1 / 2500000 * 100) ∧
    (calculate_mpa_coverage [125000000000]).1 = 125000 ∧
    (calculate_mpa_coverage [125000000000]).2 = 5 := by
  refine ⟨fun areas => rfl, ?_, ?_⟩ <;> norm_num [calculate_mpa_coverage]

/-- Claim C10: both statistical models start untrained, their prediction
methods fail with the training-required error exactly when the `trained`
flag is unset, a call to `train` sets the flag, and prediction after
training always succeeds.  In this functional embedding the failing call
returns only the error and no updated model, so the model state is left
unchanged by construction. -/
theorem C10_trained_flag_guard :
    OverfishingRiskModel.init.trained = false ∧
    JuvenileCatchForecastModel.init.trained = false ∧
    (∀ (m : OverfishingRiskModel) (X : List (List ℚ)),
        (∃ e, m.predict_risk X = Except.error e) ↔ m.trained = false) ∧
    (∀ (m : JuvenileCatchForecastModel) (X : List (List ℚ)) (days : ℕ),
        (∃ e, m.forecast X days = Except.error e) ↔ m.trained = false) ∧
    (∀ (m : OverfishingRiskModel) s p sc,
        (OverfishingRiskModel.train m s p sc).1.trained = true) ∧
    (∀ (m : JuvenileCatchForecastModel) s p sc,
        (JuvenileCatchForecastModel.train m s p sc).1.trained = true) ∧
    (∀ (m : OverfishingRiskModel) s p sc X,
        ∃ r, (OverfishingRiskModel.train m s p sc).1.predict_risk X = Except.ok r) ∧
    (∀ (m : JuvenileCatchForecastModel) s p sc X days,
        ∃ r, (JuvenileCatchForecastModel.train m s p sc).1.forecast X days =
          Except.ok r) := by
  refine ⟨rfl, rfl, ?_, ?_, fun m s p sc => rfl, fun m s p sc => rfl, ?_, ?_⟩
  · intro m X
    cases h : m.trained <;>
      simp [OverfishingRiskModel.predict_risk, h]
  · intro m X days
    cases h : m.trained <;>
      simp [JuvenileCatchForecastModel.forecast, h]
  · intro m s p sc X
    exact ⟨_, rfl⟩
  · intro m s p sc X days
    exact ⟨_, rfl⟩

/-- Counterexample to claim C7: with two qualifying MPAs listed as
`[("A", 1/25), ("B", 1/100)]` the scan breaks at the first record "A"
(distance 0.04) and reports risk `1 - 20 * (1/25) = 1/5`, while the nearest
qualifying boundary is "B" at distance 0.01, whose claimed score
`max 0 (1 - 20 * (1/100))` is `4/5`. -/
theorem C7_counterexample :
    scanMPAs [("A", 1/25), ("B", 1/100)] = some ⟨"A", 1/5⟩ ∧
    ("B", (1:ℚ)/100) ∈ [(("A" : String), (1:ℚ)/25), ("B", 1/100)] ∧
    (1:ℚ)/100 < 1/20 ∧ (1:ℚ)/100 < 1/25 ∧
    (1:ℚ)/5 ≠ max 0 (1 - 20 * (1/100)) := by
  refine ⟨?_, by simp, by norm_num, by norm_num, by norm_num⟩
  norm_num [scanMPAs]

/-- Claim C7 as amended: a cluster is flagged exactly when some MPA boundary
lies within 0.05 degree of its centroid, at most one flag is emitted, and the
flag's risk score is `max 0 (1 - 20 * d)` (equal here to
`min 1 (1 - 20 * d)`) where `d` is the distance to the FIRST qualifying MPA
in record order, not necessarily the nearest. -/
theorem C7_mpa_proximity_amended (mpas : List (String × ℚ))
    (hpos : ∀ p ∈ mpas, 0 ≤ p.2) :
    ((scanMPAs mpas).isSome = true ↔ ∃ p ∈ mpas, p.2 < 1/20) ∧
    (∀ p, mpas.find? (fun q => decide (q.2 < 1/20)) = some p →
        scanMPAs mpas = some ⟨p.1, max 0 (1 - 20 * p.2)⟩) := by
  induction mpas with
  | nil => simp [scanMPAs]
  | cons hd tl ih =>
    obtain ⟨nm, d⟩ := hd
    have hcons : scanMPAs ((nm, d) :: tl) =
        if d < 1/20 then some ⟨nm, min 1 (1 - d * 20)⟩ else scanMPAs tl := rfl
    have hd0 : 0 ≤ d := hpos (nm, d) (List.mem_cons_self _ _)
    have htl := ih fun p hp => hpos p (List.mem_cons_of_mem _ hp)
    by_cases hq : d < 1/20
    · constructor
      · rw [hcons, if_pos hq]
        simp only [Option.isSome_some, true_iff]
        exact ⟨(nm, d), List.mem_cons_self _ _, hq⟩
      · intro p hp
        rw [List.find?_cons_of_pos _ (by simpa using hq)] at hp
        obtain rfl : (nm, d) = p := by simpa using hp
        rw [hcons, if_pos hq]
        have hmin : min 1 (1 - d * 20) = 1 - d * 20 := by
          apply min_eq_right; nlinarith
        have hmax : max 0 (1 - 20 * d) = 1 - 20 * d := by
          apply max_eq_right; nlinarith
        rw [hmin, hmax]
        norm_num [mul_comm]
    · constructor
      · rw [hcons, if_neg hq]
        rw [htl.1]
        constructor
        · rintro ⟨p, hp, h⟩
          exact ⟨p, List.mem_cons_of_mem _ hp, h⟩
        · rintro ⟨p, hp, h⟩
          rcases List.mem_cons.mp hp with rfl | hp2
          · exact absurd h hq
          · exact ⟨p, hp2, h⟩
      · intro p hp
        rw [List.find?_cons_of_neg _ (by simpa using hq)] at hp
        rw [hcons, if_neg hq]
        exact htl.2 p hp

/-- Witness for C7 as amended: a single MPA at distance 0.02 qualifies and
the flag carries score `max 0 (1 - 20 * (1/50)) = 3/5`. -/
theorem C7_mpa_proximity_witness :
    (∀ p ∈ [(("X" : String), (1:ℚ)/50)], 0 ≤ p.2) ∧
    (((scanMPAs [(("X" : String), (1:ℚ)/50)]).isSome = true ↔
        ∃ p ∈ [(("X" : String), (1:ℚ)/50)], p.2 < 1/20) ∧
      (∀ p, [(("X" : String), (1:ℚ)/50)].find? (fun q => decide (q.2 < 1/20)) = some p →
          scanMPAs [(("X" : String), (1:ℚ)/50)] = some ⟨p.1, max 0 (1 - 20 * p.2)⟩)) := by
  have h : ∀ p ∈ [(("X" : String), (1:ℚ)/50)], 0 ≤ p.2 := by norm_num
  exact ⟨h, C7_mpa_proximity_amended [(("X" : String), (1:ℚ)/50)] h⟩

lemma multifactor_eq_sum_div {n : ℕ} [NeZero n] (e : MFInputs n) (j : Fin n) :
    multifactor_risk_index e j =
      ((mfComponents e).map fun p => minmaxNorm p.2 j * p.1).sum / mfTotalWeight e := by
  unfold multifactor_risk_index
  rw [show ((mfComponents e).map fun p => minmaxNorm p.2 j * p.1 / mfTotalWeight e) =
      (((mfComponents e).map fun p => minmaxNorm p.2 j * p.1).map
        fun a => a / mfTotalWeight e) by rw [List.map_map]; rfl]
  exact list_sum_div _ _

lemma multifactor_bounds {n : ℕ} [NeZero n] (e : MFInputs n) (j : Fin n) :
    0 ≤ multifactor_risk_index e j ∧ multifactor_risk_index e j ≤ 1 := by
  rw [multifactor_eq_sum_div]
  have hnum0 : 0 ≤ ((mfComponents e).map fun p => minmaxNorm p.2 j * p.1).sum := by
    apply List.sum_nonneg
    intro x hx
    obtain ⟨p, hp, rfl⟩ := List.mem_map.mp hx
    exact mul_nonneg (minmaxNorm_nonneg p.2 j) (mfComponents_weight_nonneg e p hp)
  have hnumS : ((mfComponents e).map fun p => minmaxNorm p.2 j * p.1).sum ≤
      ((mfComponents e).map fun p => p.1).sum := by
    apply List.sum_le_sum
    intro p hp
    have h1 := minmaxNorm_le_one p.2 j
    have h0 := mfComponents_weight_nonneg e p hp
    nlinarith
  have hST := mfComponents_sum_le_total e
  have hT : 0 ≤ mfTotalWeight e := le_trans (le_trans hnum0 hnumS) hST
  rcases eq_or_lt_of_le hT with hT0 | hTpos
  · rw [← hT0]
    simp
  · exact ⟨div_nonneg hnum0 (le_of_lt hTpos),
      (div_le_one hTpos).mpr (le_trans hnumS hST)⟩

/-- Concrete input for the refutation of claim C1: an environmental-stress
field is supplied on a two-cell grid and fishing data is present, so the
code declares the fishing-pressure weight 0.3 without any fishing field. -/
def mfCounterexampleInput : MFInputs 2 :=
  ⟨some ![0, 1], true, none, none, false⟩

/-- Counterexample to claim C1: with only the environmental-stress factor
field supplied (weight 0.2) and fishing data present, the multifactor
composer divides by the declared-weight total `0.2 + 0.3 = 0.5` and returns
`0.4` at the second cell, while the claimed rule - divide by the sum of the
weights of the factor fields actually present - returns `1`. -/
theorem C1_counterexample :
    multifactor_risk_index mfCounterexampleInput 1 = 2/5 ∧
    specCombine (mfComponents mfCounterexampleInput) 1 = 1 ∧
    (2/5 : ℚ) ≠ 1 := by
  have hmax : fieldMax (![0, 1] : Fin 2 → ℚ) = 1 := by
    apply le_antisymm
    · apply Finset.sup'_le
      intro j _
      fin_cases j <;> norm_num
    · exact le_fieldMax (![0, 1] : Fin 2 → ℚ) 1
  have hmin : fieldMin (![0, 1] : Fin 2 → ℚ) = 0 := by
    apply le_antisymm
    · exact fieldMin_le (![0, 1] : Fin 2 → ℚ) 0
    · apply Finset.le_inf'
      intro j _
      fin_cases j <;> norm_num
  have hnorm : minmaxNorm (![0, 1] : Fin 2 → ℚ) 1 = 1 := by
    simp only [minmaxNorm, hmax, hmin]
    norm_num
  have hcomps : mfComponents mfCounterexampleInput = [(1/5, ![0, 1])] := rfl
  have htw : mfTotalWeight mfCounterexampleInput = 1/2 := by
    unfold mfTotalWeight
    rw [hcomps]
    norm_num [mfCounterexampleInput]
  refine ⟨?_, ?_, by norm_num⟩
  · rw [multifactor_eq_sum_div, hcomps, htw]
    simp [hnorm]
    norm_num
  · rw [show specCombine (mfComponents mfCounterexampleInput) 1 =
        specCombine [((1:ℚ)/5, (![0, 1] : Fin 2 → ℚ))] 1 by rw [hcomps]]
    simp [specCombine, hnorm]

/-- Claim C1 as amended: the original composer divides the weighted sum of
the normalized present components by the sum of the weights of exactly the
present components and stays in `[0, 1]`; the multifactor composer instead
divides by the sum of ALL declared weights, which can exceed the
present-component total (fishing pressure and protection gap declare weights
without contributing a field), and its values also stay in `[0, 1]`. -/
theorem C1_risk_composition_amended {n : ℕ} [NeZero n] (d : RiskInputs n)
    (e : MFInputs n) (j : Fin n) :
    overfishing_risk_index d j = specCombine (riskComponents d) j ∧
    (0 ≤ overfishing_risk_index d j ∧ overfishing_risk_index d j ≤ 1) ∧
    multifactor_risk_index e j =
      ((mfComponents e).map fun p => minmaxNorm p.2 j * p.1).sum / mfTotalWeight e ∧
    ((mfComponents e).map fun p => p.1).sum ≤ mfTotalWeight e ∧
    (0 ≤ multifactor_risk_index e j ∧ multifactor_risk_index e j ≤ 1) :=
  ⟨rfl,
    specCombine_bounds (riskComponents d) (riskComponents_weight_nonneg d) j,
    multifactor_eq_sum_div e j,
    mfComponents_sum_le_total e,
    multifactor_bounds e j⟩

/-- Witness for C1 as amended, at a concrete one-factor input on a two-cell
grid (the `NeZero 2` instance hypothesis is discharged by instance search). -/
theorem C1_risk_composition_witness :
    (0 ≤ overfishing_risk_index ⟨some ![0, 1], none, none⟩ (1 : Fin 2) ∧
      overfishing_risk_index ⟨some ![0, 1], none, none⟩ (1 : Fin 2) ≤ 1) ∧
    (0 ≤ multifactor_risk_index mfCounterexampleInput (1 : Fin 2) ∧
      multifactor_risk_index mfCounterexampleInput (1 : Fin 2) ≤ 1) :=
  ⟨(C1_risk_composition_amended ⟨some ![0, 1], none, none⟩
      mfCounterexampleInput (1 : Fin 2)).2.1,
    (C1_risk_composition_amended ⟨some ![0, 1], none, none⟩
      mfCounterexampleInput (1 : Fin 2)).2.2.2.2⟩

lemma stock_recovery_def (p : ℝ) (t : ℕ) :
    stock_recovery p t =
      1.5 / (1 + ((1.5 - 0.6) / 0.6) * Real.exp (-(0.07 * (p / 10)) * t)) := rfl

lemma stock_recovery_eq (p : ℝ) (t : ℕ) :
    stock_recovery p t =
      1.5 / (1 + 1.5 * Real.exp (-(0.07 * (p / 10)) * t)) := by
  rw [stock_recovery_def]
  norm_num

lemma stock_denom_pos (x : ℝ) : 0 < 1 + 1.5 * Real.exp x := by
  have := Real.exp_pos x
  linarith

lemma simulate_getD_of_lt (p : ℝ) (years t : ℕ) (h : t < years + 1) :
    (simulate_expansion_stock p years).getD t 0 = stock_recovery p t := by
  unfold simulate_expansion_stock
  rw [List.getD_eq_getElem?_getD]
  simp [List.getElem?_map, List.getElem?_range h]

lemma simulate_getD_of_ge (p : ℝ) (years t : ℕ) (h : years + 1 ≤ t) :
    (simulate_expansion_stock p years).getD t 0 = 0 := by
  unfold simulate_expansion_stock
  rw [List.getD_eq_getElem?_getD]
  have : ((List.range (years + 1)).map fun s => stock_recovery p s)[t]? = none := by
    simp [List.getElem?_map]
    omega
  rw [this]
  rfl

lemma stock_recovery_mono_pct (p1 p2 : ℝ) (h : p1 ≤ p2) (t : ℕ) :
    stock_recovery p1 t ≤ stock_recovery p2 t := by
  rw [stock_recovery_eq, stock_recovery_eq]
  have ht : (0:ℝ) ≤ t := Nat.cast_nonneg t
  have hexp : Real.exp (-(0.07 * (p2 / 10)) * t) ≤
      Real.exp (-(0.07 * (p1 / 10)) * t) := by
    apply Real.exp_le_exp.mpr
    nlinarith [mul_nonneg (by linarith : (0:ℝ) ≤ p2 - p1) ht]
  have h1 := stock_denom_pos (-(0.07 * (p1 / 10)) * t)
  have h2 := stock_denom_pos (-(0.07 * (p2 / 10)) * t)
  rw [div_le_div_iff₀ h1 h2]
  nlinarith

lemma stock_recovery_zero (p : ℝ) : stock_recovery p 0 = 0.6 := by
  rw [stock_recovery_eq]
  norm_num

lemma stock_recovery_bounds (p : ℝ) (hp : 0 ≤ p) (t : ℕ) :
    0.6 ≤ stock_recovery p t ∧ stock_recovery p t < 1.5 := by
  rw [stock_recovery_eq]
  have ht : (0:ℝ) ≤ t := Nat.cast_nonneg t
  have hE1 : Real.exp (-(0.07 * (p / 10)) * t) ≤ 1 := by
    rw [show (1:ℝ) = Real.exp 0 from (Real.exp_zero).symm]
    apply Real.exp_le_exp.mpr
    nlinarith [mul_nonneg hp ht]
  have hE0 : 0 < Real.exp (-(0.07 * (p / 10)) * t) := Real.exp_pos _
  have hden := stock_denom_pos (-(0.07 * (p / 10)) * t)
  constructor
  · rw [le_div_iff₀ hden]
    nlinarith
  · rw [div_lt_iff₀ hden]
    nlinarith

lemma stock_recovery_mono_year (p : ℝ) (hp : 0 ≤ p) (t : ℕ) :
    stock_recovery p t ≤ stock_recovery p (t + 1) := by
  rw [stock_recovery_eq, stock_recovery_eq]
  have ht : (0:ℝ) ≤ t := Nat.cast_nonneg t
  have hexp : Real.exp (-(0.07 * (p / 10)) * (t + 1 : ℕ)) ≤
      Real.exp (-(0.07 * (p / 10)) * t) := by
    apply Real.exp_le_exp.mpr
    push_cast
    nlinarith [mul_nonneg hp ht]
  have h1 := stock_denom_pos (-(0.07 * (p / 10)) * t)
  have h2 := stock_denom_pos (-(0.07 * (p / 10)) * (t + 1 : ℕ))
  rw [div_le_div_iff₀ h1 h2]
  nlinarith

lemma exp_neg_one_point_four_bounds :
    0.2413 ≤ Real.exp (-1.4) ∧ Real.exp (-1.4) ≤ 0.25127 := by
  have hl01 : (0.9:ℝ) ≤ Real.exp (-0.1) := by
    have := Real.add_one_le_exp (-0.1:ℝ)
    linarith
  have hu01 : Real.exp (-0.1) ≤ 1/1.1 := by
    have h1 : (1.1:ℝ) ≤ Real.exp 0.1 := by
      have := Real.add_one_le_exp (0.1:ℝ)
      linarith
    rw [Real.exp_neg, one_div]
    exact inv_anti₀ (by norm_num) h1
  have h04 : Real.exp (-0.4) = Real.exp (-0.1) ^ 4 := by
    rw [← Real.exp_nat_mul]
    norm_num
  have hl04 : (0.6561:ℝ) ≤ Real.exp (-0.4) := by
    rw [h04]
    calc (0.6561:ℝ) = 0.9 ^ 4 := by norm_num
      _ ≤ Real.exp (-0.1) ^ 4 := pow_le_pow_left₀ (by norm_num) hl01 4
  have hu04 : Real.exp (-0.4) ≤ 0.6830135 := by
    rw [h04]
    calc Real.exp (-0.1) ^ 4 ≤ (1/1.1) ^ 4 :=
          pow_le_pow_left₀ (le_of_lt (Real.exp_pos _)) hu01 4
      _ ≤ 0.6830135 := by norm_num
  have hl1 : (0.3678794:ℝ) ≤ Real.exp (-1) := by
    rw [Real.exp_neg, le_inv_comm₀ (by norm_num) (Real.exp_pos 1)]
    calc Real.exp 1 ≤ 2.7182818286 := le_of_lt Real.exp_one_lt_d9
      _ ≤ (0.3678794:ℝ)⁻¹ := by norm_num
  have hu1 : Real.exp (-1 : ℝ) ≤ 0.36787945 := by
    rw [Real.exp_neg, inv_le_comm₀ (Real.exp_pos 1) (by norm_num)]
    calc (0.36787945:ℝ)⁻¹ ≤ 2.7182818283 := by norm_num
      _ ≤ Real.exp 1 := le_of_lt Real.exp_one_gt_d9
  have h14 : Real.exp (-1.4) = Real.exp (-1) * Real.exp (-0.4) := by
    rw [← Real.exp_add]
    norm_num
  have he04pos : (0:ℝ) < Real.exp (-0.4) := Real.exp_pos _
  have he1pos : (0:ℝ) < Real.exp (-1) := Real.exp_pos _
  constructor
  · rw [h14]
    nlinarith
  · rw [h14]
    nlinarith

/-- Claim C3: every entry of the simulated stock-recovery array is the
logistic closed form `K / (1 + ((K - 0.6) / 0.6) * exp(-r * t))` with
`K = 1.5` and `r = 0.07 * (p / 10)`, and for expansion 20 percent over 10
years the final entry is within 0.01 of 1.095. -/
theorem C3_scenario_closed_form :
    (∀ (p : ℝ) (years t : ℕ), t < years + 1 →
        (simulate_expansion_stock p years).getD t 0 =
          1.5 / (1 + ((1.5 - 0.6) / 0.6) * Real.exp (-(0.07 * (p / 10)) * t))) ∧
    |(simulate_expansion_stock 20 10).getD 10 0 - 1.095| ≤ 0.01 := by
  constructor
  · intro p years t h
    rw [simulate_getD_of_lt p years t h, stock_recovery_def]
  · rw [simulate_getD_of_lt 20 10 10 (by norm_num), stock_recovery_eq]
    have harg : -(0.07 * ((20:ℝ) / 10)) * (10:ℕ) = -1.4 := by
      push_cast
      norm_num
    rw [harg]
    obtain ⟨hEl, hEu⟩ := exp_neg_one_point_four_bounds
    have hden := stock_denom_pos (-1.4:ℝ)
    have hub : 1.5 / (1 + 1.5 * Real.exp (-1.4)) ≤ 1.105 := by
      rw [div_le_iff₀ hden]
      nlinarith
    have hlb : 1.085 ≤ 1.5 / (1 + 1.5 * Real.exp (-1.4)) := by
      rw [le_div_iff₀ hden]
      nlinarith
    rw [abs_le]
    constructor <;> linarith

/-- Witness for C3 at expansion 10 percent, 2 years, year index 1. -/
theorem C3_scenario_closed_form_witness :
    1 < 2 + 1 ∧
    (simulate_expansion_stock 10 2).getD 1 0 =
      1.5 / (1 + ((1.5 - 0.6) / 0.6) * Real.exp (-(0.07 * ((10:ℝ) / 10)) * (1:ℕ))) :=
  ⟨by norm_num, C3_scenario_closed_form.1 10 2 1 (by norm_num)⟩

/-- Claim C4: at any fixed year index, the simulated stock recovery is
monotone nondecreasing in the expansion percentage. -/
theorem C4_stock_monotone_in_expansion (p1 p2 : ℝ) (h : p1 ≤ p2)
    (years t : ℕ) :
    (simulate_expansion_stock p1 years).getD t 0 ≤
      (simulate_expansion_stock p2 years).getD t 0 := by
  by_cases ht : t < years + 1
  · rw [simulate_getD_of_lt p1 years t ht, simulate_getD_of_lt p2 years t ht]
    exact stock_recovery_mono_pct p1 p2 h t
  · rw [simulate_getD_of_ge p1 years t (by omega), simulate_getD_of_ge p2 years t (by omega)]

/-- Witness for C4 at expansions 10 and 20 percent, year index 3 of a
5-year run. -/
theorem C4_stock_monotone_witness :
    (10:ℝ) ≤ 20 ∧
    (simulate_expansion_stock 10 5).getD 3 0 ≤
      (simulate_expansion_stock 20 5).getD 3 0 :=
  ⟨by norm_num, C4_stock_monotone_in_expansion 10 20 (by norm_num) 5 3⟩

/-- Claim C9: for a nonnegative expansion percentage the stock-recovery
array starts at the initial stock 0.6, is nondecreasing year over year, and
every entry lies in `[0.6, 1.5)`. -/
theorem C9_stock_array_invariants (p : ℝ) (years : ℕ) (hp : 0 ≤ p)
    (hy : 1 ≤ years) :
    (simulate_expansion_stock p years).getD 0 0 = 0.6 ∧
    (∀ t, t < years →
        (simulate_expansion_stock p years).getD t 0 ≤
          (simulate_expansion_stock p years).getD (t + 1) 0) ∧
    (∀ t, t < years + 1 →
        0.6 ≤ (simulate_expansion_stock p years).getD t 0 ∧
          (simulate_expansion_stock p years).getD t 0 < 1.5) := by
  refine ⟨?_, ?_, ?_⟩
  · rw [simulate_getD_of_lt p years 0 (by omega)]
    exact stock_recovery_zero p
  · intro t ht
    rw [simulate_getD_of_lt p years t (by omega),
      simulate_getD_of_lt p years (t + 1) (by omega)]
    exact stock_recovery_mono_year p hp t
  · intro t ht
    rw [simulate_getD_of_lt p years t ht]
    exact stock_recovery_bounds p hp t

/-- Witness for C9 at expansion 10 percent over 2 years. -/
theorem C9_stock_array_invariants_witness :
    (0:ℝ) ≤ 10 ∧ 1 ≤ 2 ∧
    ((simulate_expansion_stock 10 2).getD 0 0 = 0.6 ∧
      (∀ t, t < 2 →
          (simulate_expansion_stock 10 2).getD t 0 ≤
            (simulate_expansion_stock 10 2).getD (t + 1) 0) ∧
      (∀ t, t < 2 + 1 →
          0.6 ≤ (simulate_expansion_stock 10 2).getD t 0 ∧
            (simulate_expansion_stock 10 2).getD t 0 < 1.5)) :=
  ⟨by norm_num, by norm_num, C9_stock_array_invariants 10 2 (by norm_num) (by norm_num)⟩

/-- Claim C5 evaluated at a failing input: a cell whose temperature is the
constant 10 across the samples of a month group has zero climatological
standard deviation, and the unguarded division of `calculate_sst_anomaly`
produces no finite value there (numpy yields NaN), not the zero anomaly the
specification requires. -/
theorem C5_constant_cell_divergence :
    sampleStd [(10:ℝ), 10] = 0 ∧
    standardized_anomaly [(10:ℝ), 10] = [none, none] ∧
    (none : Option ℝ) ≠ some 0 := by
  have hmean : sampleMean [(10:ℝ), 10] = 10 := by
    unfold sampleMean
    norm_num
  have hstd : sampleStd [(10:ℝ), 10] = 0 := by
    unfold sampleStd
    rw [hmean]
    norm_num
  refine ⟨hstd, ?_, by simp⟩
  unfold standardized_anomaly
  rw [hstd]
  simp [fdiv]

lemma sqrt_one_add_div_sq (y x : ℝ) (hx : x ≠ 0) :
    Real.sqrt (1 + (y / x) ^ 2) = Real.sqrt (x ^ 2 + y ^ 2) / |x| := by
  have h1 : 1 + (y / x) ^ 2 = (x ^ 2 + y ^ 2) / x ^ 2 := by
    field_simp
  rw [h1, Real.sqrt_div (by positivity) _, Real.sqrt_sq_eq_abs]

lemma cos_arctan_div (y x : ℝ) (hx : x ≠ 0) :
    Real.cos (Real.arctan (y / x)) = |x| / Real.sqrt (x ^ 2 + y ^ 2) := by
  rw [Real.cos_arctan, sqrt_one_add_div_sq y x hx, one_div_div]

lemma sin_arctan_div (y x : ℝ) (hx : x ≠ 0) :
    Real.sin (Real.arctan (y / x)) = y / x * |x| / Real.sqrt (x ^ 2 + y ^ 2) := by
  rw [Real.sin_arctan, sqrt_one_add_div_sq y x hx, div_div_eq_mul_div]

lemma arctan2_cos_sin_of_ne (y x : ℝ) (h : ¬(x = 0 ∧ y = 0)) :
    Real.cos (arctan2 y x) = x / Real.sqrt (x ^ 2 + y ^ 2) ∧
    Real.sin (arctan2 y x) = y / Real.sqrt (x ^ 2 + y ^ 2) := by
  rcases lt_trichotomy x 0 with hx | hx | hx
  · have hxne : x ≠ 0 := ne_of_lt hx
    have habs : |x| = -x := abs_of_neg hx
    have harct : arctan2 y x = if 0 ≤ y then Real.arctan (y / x) + Real.pi
        else Real.arctan (y / x) - Real.pi := by
      unfold arctan2
      rw [if_neg (by linarith), if_pos hx]
    have hyx : y / x * -x = -y := by
      rw [mul_neg, div_mul_cancel₀ y hxne]
    by_cases hy : 0 ≤ y
    · rw [harct, if_pos hy, Real.cos_add_pi, Real.sin_add_pi,
        cos_arctan_div y x hxne, sin_arctan_div y x hxne, habs, hyx]
      constructor
      · rw [neg_div, neg_neg]
      · rw [neg_div, neg_neg]
    · rw [harct, if_neg hy, Real.cos_sub_pi, Real.sin_sub_pi,
        cos_arctan_div y x hxne, sin_arctan_div y x hxne, habs, hyx]
      constructor
      · rw [neg_div, neg_neg]
      · rw [neg_div, neg_neg]
  · subst hx
    have hy : y ≠ 0 := by
      intro hy
      exact h ⟨rfl, hy⟩
    have hsq : Real.sqrt (0 ^ 2 + y ^ 2) = |y| := by
      rw [show (0:ℝ) ^ 2 + y ^ 2 = y ^ 2 by ring, Real.sqrt_sq_eq_abs]
    rcases lt_or_gt_of_ne hy with hneg | hpos
    · have harct : arctan2 y 0 = -(Real.pi / 2) := by
        unfold arctan2
        rw [if_neg (by norm_num), if_neg (by norm_num), if_neg (by linarith),
          if_pos hneg]
      rw [harct, hsq, Real.cos_neg, Real.sin_neg, Real.cos_pi_div_two,
        Real.sin_pi_div_two, abs_of_neg hneg]
      constructor
      · rw [zero_div]
      · rw [div_neg, div_self (by linarith : y ≠ 0)]
    · have harct : arctan2 y 0 = Real.pi / 2 := by
        unfold arctan2
        rw [if_neg (by norm_num), if_neg (by norm_num), if_pos hpos]
      rw [harct, hsq, Real.cos_pi_div_two, Real.sin_pi_div_two, abs_of_pos hpos]
      constructor
      · rw [zero_div]
      · rw [div_self (ne_of_gt hpos)]
  · have hxne : x ≠ 0 := ne_of_gt hx
    have habs : |x| = x := abs_of_pos hx
    have harct : arctan2 y x = Real.arctan (y / x) := by
      unfold arctan2
      rw [if_pos hx]
    rw [harct, cos_arctan_div y x hxne, sin_arctan_div y x hxne, habs,
      div_mul_cancel₀ y hxne]
    exact ⟨rfl, rfl⟩

lemma arctan2_cos_sin (y x : ℝ) :
    Real.sqrt (x ^ 2 + y ^ 2) * Real.cos (arctan2 y x) = x ∧
    Real.sqrt (x ^ 2 + y ^ 2) * Real.sin (arctan2 y x) = y := by
  by_cases h0 : x = 0 ∧ y = 0
  · obtain ⟨rfl, rfl⟩ := h0
    norm_num [arctan2]
  · have hpos : 0 < x ^ 2 + y ^ 2 := by
      rcases not_and_or.mp h0 with hx | hy
      · have : 0 < x ^ 2 := by positivity
        nlinarith [sq_nonneg y]
      · have : 0 < y ^ 2 := by positivity
        nlinarith [sq_nonneg x]
    have hs : 0 < Real.sqrt (x ^ 2 + y ^ 2) := Real.sqrt_pos.mpr hpos
    obtain ⟨hc, hsn⟩ := arctan2_cos_sin_of_ne y x h0
    rw [hc, hsn]
    constructor
    · rw [mul_comm]
      exact div_mul_cancel₀ x hs.ne'
    · rw [mul_comm]
      exact div_mul_cancel₀ y hs.ne'

lemma fmod_360_bounds (x : ℝ) : 0 ≤ fmod x 360 ∧ fmod x 360 < 360 := by
  unfold fmod
  have heq : x - 360 * ⌊x / 360⌋ = 360 * (x / 360 - ⌊x / 360⌋) := by
    ring
  rw [heq, Int.self_sub_floor]
  constructor
  · exact mul_nonneg (by norm_num) (Int.fract_nonneg _)
  · nlinarith [Int.fract_lt_one (x / 360)]

lemma current_direction_radians (u v : ℝ) :
    ∃ k : ℤ, current_direction u v * Real.pi / 180 =
      arctan2 v u + k * (2 * Real.pi) := by
  refine ⟨1 - ⌊(arctan2 v u * 180 / Real.pi + 360) / 360⌋, ?_⟩
  unfold current_direction fmod
  have hπ : Real.pi ≠ 0 := Real.pi_ne_zero
  push_cast
  field_simp
  ring

/-- Modelled from the spec: `θ` in degrees is the angle of the vector
`(u, v)` measured CLOCKWISE from east exactly when the vector is the speed
times `(cos θ, -sin θ)` of the angle converted to radians. -/
def IsClockwiseFromEast (θ u v : ℝ) : Prop :=
  u = Real.sqrt (u ^ 2 + v ^ 2) * Real.cos (θ * Real.pi / 180) ∧
  v = -(Real.sqrt (u ^ 2 + v ^ 2) * Real.sin (θ * Real.pi / 180))

/-- Counterexample to claim C6: for the northward current `(u, v) = (0, 1)`
the code computes direction 90 degrees, but 90 degrees read clockwise from
east points south - the clockwise reading of the computed direction would
require `v = -1`.  The convention the code implements is counterclockwise
from east. -/
theorem C6_counterexample :
    current_direction 0 1 = 90 ∧
    ¬ IsClockwiseFromEast (current_direction 0 1) 0 1 := by
  have hπ : Real.pi ≠ 0 := Real.pi_ne_zero
  have h1 : arctan2 1 0 = Real.pi / 2 := by
    unfold arctan2
    norm_num
  have harg : arctan2 1 0 * 180 / Real.pi + 360 = 450 := by
    rw [h1]
    field_simp
    ring
  have hdir : current_direction 0 1 = 90 := by
    unfold current_direction fmod
    rw [harg]
    have hfl : ⌊(450:ℝ) / 360⌋ = 1 := by
      rw [Int.floor_eq_iff]
      norm_num
    rw [hfl]
    norm_num
  have hsin : Real.sin ((90:ℝ) * Real.pi / 180) = 1 := by
    rw [show (90:ℝ) * Real.pi / 180 = Real.pi / 2 by ring, Real.sin_pi_div_two]
  have hsqrt : Real.sqrt ((0:ℝ) ^ 2 + 1 ^ 2) = 1 := by
    norm_num
  refine ⟨hdir, ?_⟩
  rintro ⟨-, habs⟩
  rw [hdir, hsqrt, hsin] at habs
  norm_num at habs

/-- Claim C6 as amended: the computed speed is `sqrt(u^2 + v^2)`, and the
computed direction lies in `[0, 360)` and is the angle of `(u, v)` in
degrees measured COUNTERCLOCKWISE from east (the standard mathematical
convention of `np.arctan2`), i.e. the vector equals the speed times
`(cos, sin)` of the direction converted to radians. -/
theorem C6_current_speed_direction_amended (u v : ℝ) :
    current_speed u v = Real.sqrt (u ^ 2 + v ^ 2) ∧
    (0 ≤ current_direction u v ∧ current_direction u v < 360) ∧
    current_speed u v * Real.cos (current_direction u v * Real.pi / 180) = u ∧
    current_speed u v * Real.sin (current_direction u v * Real.pi / 180) = v := by
  refine ⟨rfl, fmod_360_bounds _, ?_, ?_⟩
  · obtain ⟨k, hk⟩ := current_direction_radians u v
    rw [hk, Real.cos_add_int_mul_two_pi]
    exact (arctan2_cos_sin v u).1
  · obtain ⟨k, hk⟩ := current_direction_radians u v
    rw [hk, Real.sin_add_int_mul_two_pi]
    exact (arctan2_cos_sin v u).2

end MedGuard
